import Mathlib

set_option maxRecDepth 16384

/-!
# Verification of the process-mcp execution & lifecycle layer

A shallow embedding of the core of the `process-mcp` repository:
the process entity and registry (`src/types/process.ts`,
`src/registry/process-registry.ts`), the shared output utilities
(`src/executors/interface.ts`: `parseEscapeSequences`,
`renderTerminalBuffer`, `truncateOutput`), and the executor operations
(`HostExecutor` in the host backend file and `DockerExecutor` in
`src/executors/docker-executor.ts`).

JS strings are modelled as Lean `String`s (lists of characters);
timestamps (`Date.getTime()`) as `Nat`; the JS `Map` backing the registry
as a `List Process` with unique `pid` keys, where `set` replaces in place
and otherwise appends (insertion order preserved, as for a JS `Map`).
The xterm terminal emulator is an external library; a terminal is
modelled abstractly by the list of plain-text lines of its active buffer,
which is all `renderTerminalBuffer` consumes.
-/

/-- Process status: the source's `"running" | "terminated"` union. -/
inductive ProcStatus where
  | running
  | terminated
deriving DecidableEq, Repr

/-- The `Process` record of `src/types/process.ts`. The three `PassThrough`
streams are modelled by what the executors observably do with them: the
bytes written to `stdinStream` are accumulated in `stdinWritten`; the
`stdout`/`stderr` string accumulators are kept as in the source. The xterm
`Terminal` is modelled by the plain-text lines of its active buffer. -/
structure Process where
  pid : String
  command : String
  cwd : String
  tty : Bool
  createdAt : Nat
  status : ProcStatus
  exitCode : Option Int
  stdout : String
  stderr : String
  stdinWritten : String
  terminal : Option (List String)
deriving DecidableEq, Repr

/-- `SpawnResult` of `src/types/process.ts`. -/
structure SpawnResult where
  pid : String
  status : ProcStatus
  exitCode : Option Int
  stdout : String
  stderr : String
deriving DecidableEq, Repr

/-- The stable machine-readable error codes used by the executors
(`src/lib/error.ts` callers). Only the codes exercised by the modelled
operations are listed. -/
inductive ErrCode where
  | process_not_found
  | not_tty
  | process_terminated
  | stream_not_found
  | kill_failed
  | stdin_failed
deriving DecidableEq, Repr

/-- The `Result` type of `src/lib/error.ts`: explicit success/failure,
failure carrying a code and a message. -/
inductive Result (α : Type) where
  | ok (value : α)
  | err (code : ErrCode) (message : String)
deriving DecidableEq, Repr

/-- The registry's backing `Map<string, Process>`, modelled as a list in
insertion order with unique `pid` keys. -/
abbrev Registry := List Process

namespace Registry

/-- `Map.get`: the unique entry with the given pid, if any. -/
def get (reg : Registry) (pid : String) : Option Process :=
  reg.find? (fun p => p.pid = pid)

/-- `Map.set`: replace the entry with the same key in place, else append
(JS `Map` keeps the original insertion position on overwrite). -/
def set (reg : Registry) (p : Process) : Registry :=
  if reg.any (fun q => q.pid = p.pid) then
    reg.map (fun q => if q.pid = p.pid then p else q)
  else
    reg ++ [p]

/-- `Map.delete pid`: remove the (unique) entry with that key. -/
def eraseKey (reg : Registry) (pid : String) : Registry :=
  reg.filter (fun q => q.pid ≠ pid)

/-- Update the entry with the given key by `f`, leaving others alone. -/
def modify (reg : Registry) (pid : String) (f : Process → Process) : Registry :=
  reg.map (fun q => if q.pid = pid then f q else q)

end Registry

/-- `maxTerminatedProcesses` in `src/registry/process-registry.ts`. -/
def maxTerminatedProcesses : Nat := 5

/-- The comparator `(a, b) => b.createdAt.getTime() - a.createdAt.getTime()`
of `pruneTerminated`: sort most recently created first. -/
def moreRecent (a b : Process) : Prop := b.createdAt ≤ a.createdAt

instance : DecidableRel moreRecent := fun a b => Nat.decLe _ _

instance : IsTotal Process moreRecent :=
  ⟨fun a b => (Nat.le_total a.createdAt b.createdAt).symm⟩

instance : IsTrans Process moreRecent :=
  ⟨fun _ _ _ h h' => Nat.le_trans h' h⟩

/-- The `terminated` list computed by `ProcessRegistry.pruneTerminated`:
all terminated entries, sorted most-recently-created first (JS
`Array.sort` with a comparator is stable, as is `insertionSort`). -/
def terminatedSorted (reg : Registry) : List Process :=
  List.insertionSort moreRecent
    (reg.filter (fun p => p.status = ProcStatus.terminated))

/-- `ProcessRegistry.pruneTerminated`: delete from the map every
terminated entry beyond the `maxTerminatedProcesses` most recent. -/
def pruneTerminated (reg : Registry) : Registry :=
  ((terminatedSorted reg).drop maxTerminatedProcesses).foldl
    (fun r p => Registry.eraseKey r p.pid) reg

/-- `ProcessRegistry.add`: `processes.set(pid, process)` followed by
`pruneTerminated()`. -/
def registryAdd (reg : Registry) (p : Process) : Registry :=
  pruneTerminated (Registry.set reg p)

/-! ## Output utilities (`src/executors/interface.ts`) -/

/-- `OUTPUT_TRUNCATE` in `src/types/process.ts`. -/
def OUTPUT_TRUNCATE : Nat := 8196

/-- `MAX_TIMEOUT_MS` in `src/types/process.ts`. -/
def MAX_TIMEOUT_MS : Nat := 60000

/-- `DEFAULT_TIMEOUT_MS` in `src/types/process.ts`. -/
def DEFAULT_TIMEOUT_MS : Nat := 10000

/-- `output.slice(-OUTPUT_TRUNCATE)` for a positive count: the trailing
window of at most `n` characters. -/
def sliceLastChars (n : Nat) (s : String) : String :=
  String.mk (s.data.drop (s.data.length - n))

/-- `truncateOutput` of `src/executors/interface.ts`: identity at or
under the `OUTPUT_TRUNCATE` budget, else the trailing
`OUTPUT_TRUNCATE`-character window with the marker appended. -/
def truncateOutput (output : String) : String :=
  if output.length ≤ OUTPUT_TRUNCATE then output
  else sliceLastChars OUTPUT_TRUNCATE output ++ "\n... (truncated)"

/-- `renderTerminalBuffer` of `src/executors/interface.ts`: walk every
buffered line of the active buffer, translate each to plain text, join
with newlines. With the terminal modelled by its list of plain-text
lines, this is `intercalate "\n"`. -/
def renderTerminalBuffer (lines : List String) : String :=
  String.intercalate "\n" lines

/-- The `getTerminalBuffer` closure built in both executors' `spawn`:
`""` when no terminal is attached, `""` when the buffer has no line 0,
otherwise `renderTerminalBuffer(terminal)`. -/
def getTerminalBuffer (p : Process) : String :=
  match p.terminal with
  | none => ""
  | some lines => if lines.isEmpty then "" else renderTerminalBuffer lines

/-! ## Escape-sequence decoding (`parseEscapeSequences`)

The source is five sequential global `String.replace` passes:
`\\n`, `\\r`, `\\t`, then `\\x([0-9A-Fa-f]{2})`, then
`\\u([0-9A-Fa-f]{4})`; each pass scans left to right, non-overlapping,
and a later pass runs on the full output of the earlier one. -/

/-- Hex-digit test matching the character class `[0-9A-Fa-f]`. -/
def isHexDigit (c : Char) : Bool :=
  ('0' ≤ c && c ≤ '9') || ('a' ≤ c && c ≤ 'f') || ('A' ≤ c && c ≤ 'F')

/-- Value of one hex digit, as used by `parseInt(hex, 16)`. -/
def hexVal (c : Char) : Nat :=
  if '0' ≤ c && c ≤ '9' then c.toNat - 48
  else if 'a' ≤ c && c ≤ 'f' then c.toNat - 87
  else if 'A' ≤ c && c ≤ 'F' then c.toNat - 55
  else 0

/-- One global pass `.replace(/\\e/g, ctl)` for a two-character escape
`\e`: scan left to right; on a match consume both characters and emit
`ctl`; otherwise emit one character and continue at the next. -/
def replaceEscape (esc ctl : Char) : List Char → List Char
  | [] => []
  | [c] => [c]
  | a :: b :: rest =>
    if a = '\\' && b = esc then ctl :: replaceEscape esc ctl rest
    else a :: replaceEscape esc ctl (b :: rest)

/-- The global pass `.replace(/\\x([0-9A-Fa-f]{2})/g, ...)`:
`String.fromCharCode(parseInt(hex, 16))` on each match; on a failed
match at a `\` the scan advances one character, like the regex engine. -/
def replaceHexEscape : List Char → List Char
  | '\\' :: 'x' :: h1 :: h2 :: rest =>
    if isHexDigit h1 && isHexDigit h2 then
      Char.ofNat (16 * hexVal h1 + hexVal h2) :: replaceHexEscape rest
    else '\\' :: replaceHexEscape ('x' :: h1 :: h2 :: rest)
  | c :: rest => c :: replaceHexEscape rest
  | [] => []

/-- The global pass `.replace(/\\u([0-9A-Fa-f]{4})/g, ...)`. (JS works on
UTF-16 code units; the model uses Unicode scalars, which agrees on all
non-surrogate code points — every input appearing in the claims.) -/
def replaceUnicodeEscape : List Char → List Char
  | '\\' :: 'u' :: h1 :: h2 :: h3 :: h4 :: rest =>
    if isHexDigit h1 && isHexDigit h2 && isHexDigit h3 && isHexDigit h4 then
      Char.ofNat (4096 * hexVal h1 + 256 * hexVal h2 + 16 * hexVal h3 + hexVal h4)
        :: replaceUnicodeEscape rest
    else '\\' :: replaceUnicodeEscape ('u' :: h1 :: h2 :: h3 :: h4 :: rest)
  | c :: rest => c :: replaceUnicodeEscape rest
  | [] => []

/-- `parseEscapeSequences` of `src/executors/interface.ts`: the five
replacement passes chained in source order. -/
def parseEscapeSequences (input : String) : String :=
  String.mk (replaceUnicodeEscape (replaceHexEscape
    (replaceEscape 't' '\t' (replaceEscape 'r' '\r'
      (replaceEscape 'n' '\n' input.data)))))

/-- Follows the spec's words (§4.4), for comparison with the source's
`parseEscapeSequences`: "a single deterministic forward pass
recognizing, in priority order: `\n`, `\r`, `\t` ...; `\xHH` ...;
`\uHHHH` ...; any other character is passed through unchanged." -/
def specSinglePassDecode : List Char → List Char
  | '\\' :: 'n' :: rest => '\n' :: specSinglePassDecode rest
  | '\\' :: 'r' :: rest => '\r' :: specSinglePassDecode rest
  | '\\' :: 't' :: rest => '\t' :: specSinglePassDecode rest
  | '\\' :: 'x' :: h1 :: h2 :: rest =>
    if isHexDigit h1 && isHexDigit h2 then
      Char.ofNat (16 * hexVal h1 + hexVal h2) :: specSinglePassDecode rest
    else '\\' :: specSinglePassDecode ('x' :: h1 :: h2 :: rest)
  | '\\' :: 'u' :: h1 :: h2 :: h3 :: h4 :: rest =>
    if isHexDigit h1 && isHexDigit h2 && isHexDigit h3 && isHexDigit h4 then
      Char.ofNat (4096 * hexVal h1 + 256 * hexVal h2 + 16 * hexVal h3 + hexVal h4)
        :: specSinglePassDecode rest
    else '\\' :: specSinglePassDecode ('u' :: h1 :: h2 :: h3 :: h4 :: rest)
  | c :: rest => c :: specSinglePassDecode rest
  | [] => []

/-! ## Output windowing (`stdout` in both executors) -/

/-- JS `s.split("\n")` at the character level: `[] ↦ [[]]`, every newline
opens a new (possibly empty) segment. -/
def splitNlChars : List Char → List (List Char)
  | [] => [[]]
  | '\n' :: rest => [] :: splitNlChars rest
  | c :: rest =>
    match splitNlChars rest with
    | [] => [[c]]
    | g :: gs => (c :: g) :: gs

/-- JS `segments.join("\n")` at the character level. -/
def joinNlChars : List (List Char) → List Char
  | [] => []
  | [g] => g
  | g :: g2 :: gs => g ++ '\n' :: joinNlChars (g2 :: gs)

/-- JS `xs.slice(-n)` for a non-negative count `n`: for `n = 0` this is
`xs.slice(0)`, the whole array; for `n ≥ 1` the final `min n len`
elements. -/
def jsSliceLast (n : Nat) (xs : List (List Char)) : List (List Char) :=
  if n = 0 then xs else xs.drop (xs.length - n)

/-- The windowing step of `HostExecutor.stdout` / `DockerExecutor.stdout`:
`text.split("\n").slice(-lines).join("\n")`. -/
def windowLines (lines : Nat) (text : String) : String :=
  String.mk (joinNlChars (jsSliceLast lines (splitNlChars text.data)))

/-- Follows the spec's words (§4.1 `readOutput`), for comparison with
the source's windowing: the streams are "windowed to the last N lines by
splitting on line boundaries and keeping the final N segments". -/
def specWindow (n : Nat) (text : String) : String :=
  let segs := splitNlChars text.data
  String.mk (joinNlChars (segs.drop (segs.length - n)))

/-- The text the `stdout` operation reads for a process: the rendered
terminal buffer when `process.tty && process.terminal`, else the raw
accumulated `process.stdout`. -/
def readSource (p : Process) : String :=
  if p.tty && p.terminal.isSome then getTerminalBuffer p else p.stdout

/-- The pair returned by the `stdout` operation. -/
structure ReadOutput where
  stdout : String
  stderr : String
deriving DecidableEq, Repr

/-- `HostExecutor.stdout` / `DockerExecutor.stdout` (identical bodies):
fail `process_not_found` on an unknown id, otherwise window the TTY
buffer or raw stdout, and the raw stderr, to the last `lines` lines. -/
def stdoutOp (reg : Registry) (pid : String) (lines : Nat) : Result ReadOutput :=
  match Registry.get reg pid with
  | none => Result.err ErrCode.process_not_found ("Process " ++ pid ++ " not found")
  | some p =>
    Result.ok ⟨windowLines lines (readSource p), windowLines lines p.stderr⟩

/-! ## `stdin` (`HostExecutor.stdin` / `DockerExecutor.stdin`) -/

/-- `HostExecutor.stdin` / `DockerExecutor.stdin` (identical bodies):
check unknown id, then TTY, then status, in that order; on success write
the escape-decoded text to the entity's stdin stream. The write is
modelled by appending the decoded bytes to `stdinWritten`. -/
def stdinOp (reg : Registry) (pid : String) (input : String) :
    Result Unit × Registry :=
  match Registry.get reg pid with
  | none =>
    (Result.err ErrCode.process_not_found ("Process " ++ pid ++ " not found"), reg)
  | some p =>
    if !p.tty then
      (Result.err ErrCode.not_tty
        "Process is not in TTY mode. Only TTY processes can receive stdin.", reg)
    else if p.status ≠ ProcStatus.running then
      (Result.err ErrCode.process_terminated "Process has already terminated", reg)
    else
      (Result.ok (),
        Registry.modify reg pid (fun q =>
          { q with stdinWritten := q.stdinWritten ++ parseEscapeSequences input }))

/-! ## Spawn result construction and the foreground/background race
(`HostExecutor.spawn`; `DockerExecutor.spawn` is identical from the
race onward) -/

/-- `Math.min(timeoutMs, MAX_TIMEOUT_MS)`: the duration of the timer the
foreground wait races against completion. -/
def actualTimeout (timeoutMs : Nat) : Nat := min timeoutMs MAX_TIMEOUT_MS

/-- The result returned on the `background=true` path: literal
`status: "running"`, no exit code, truncated raw accumulators. -/
def backgroundResult (p : Process) : SpawnResult :=
  { pid := p.pid
    status := ProcStatus.running
    exitCode := none
    stdout := truncateOutput p.stdout
    stderr := truncateOutput p.stderr }

/-- The result returned after the foreground race (whichever signal won):
the entity's current status and exit code, and its truncated output
(rendered terminal buffer when `tty`). -/
def foregroundResult (p : Process) : SpawnResult :=
  { pid := p.pid
    status := p.status
    exitCode := p.exitCode
    stdout := truncateOutput (if p.tty then getTerminalBuffer p else p.stdout)
    stderr := truncateOutput p.stderr }

/-- Executor-side state touched by `spawn`'s return step: the registry
and the side table of live transports (`childProcesses` keys in the host
backend). -/
structure HostState where
  registry : Registry
  children : List String
deriving DecidableEq, Repr

/-- The return step of `HostExecutor.spawn` after the entity `p` is
registered and its transport attached: on the background path, and on
the foreground path once the completion-vs-timeout race has resolved
with `p` as the entity's state at that moment, the call only builds a
result — it never cancels the transport, never removes the entity, and
never mutates executor state. -/
def spawnReturn (st : HostState) (p : Process) (background : Bool) :
    SpawnResult × HostState :=
  if background then (backgroundResult p, st) else (foregroundResult p, st)

/-! ## `DockerExecutor.kill` -/

/-- One exec stream in the `execStreams` side table of the container
backend; `destroyed` models `stream.destroy()` having been called. -/
structure ExecStream where
  pid : String
  destroyed : Bool
deriving DecidableEq, Repr

/-- Container-backend state touched by `kill`. -/
structure DockerState where
  registry : Registry
  execStreams : List ExecStream
deriving DecidableEq, Repr

/-- `DockerExecutor.kill`: unknown id fails `process_not_found`; an
already-finished entity fails `process_terminated`; a missing exec
stream fails `stream_not_found`; otherwise destroy the local stream and
mark the entity terminated with exit code 143 (`128 + 15 (SIGTERM)` in
the source, written unconditionally whatever `signal` was passed),
returning success without any container-side call. -/
def dockerKill (st : DockerState) (pid signal : String) :
    Result Unit × DockerState :=
  match Registry.get st.registry pid with
  | none =>
    (Result.err ErrCode.process_not_found ("Process " ++ pid ++ " not found"), st)
  | some p =>
    if p.status ≠ ProcStatus.running then
      (Result.err ErrCode.process_terminated "Process has already terminated", st)
    else if !(st.execStreams.any (fun s => s.pid = pid)) then
      (Result.err ErrCode.stream_not_found "Exec stream not found", st)
    else
      (Result.ok (),
        { registry := Registry.modify st.registry pid (fun q =>
            { q with status := ProcStatus.terminated, exitCode := some 143 })
          execStreams := st.execStreams.map (fun s =>
            if s.pid = pid then { s with destroyed := true } else s) })

/-- Modelled from the spec (§4.3 "a conventional exit code corresponding
to the delivered signal (143 for SIGTERM)"): the Unix convention
`128 + signal number` for the signals the tool schema mentions. -/
def conventionalExitCode (signal : String) : Option Int :=
  if signal = "SIGTERM" then some 143
  else if signal = "SIGKILL" then some 137
  else if signal = "SIGINT" then some 130
  else if signal = "SIGHUP" then some 129
  else none

/-! ## Entity lifecycle events (completion handlers of both backends) -/

/-- The events that mutate a registered entity, from the stream callbacks
and completion handlers of both backends: an output/error chunk; the
child `exit` event (host) or exec-inspect on stream end (container),
whose code may be absent (`code ?? undefined`, `ExitCode ?? undefined`);
a transport `error` event (exit code 1, message appended to stderr);
the container backend's `kill` marking (exit code 143). -/
inductive ProcEvent where
  | stdoutData (chunk : String)
  | stderrData (chunk : String)
  | exited (code : Option Int)
  | errored (msg : String)
  | killMarked
deriving DecidableEq, Repr

/-- Apply one lifecycle event to an entity, exactly as the handlers in
`HostExecutor.spawn` / `DockerExecutor.spawn` / `DockerExecutor.kill`
mutate the shared `process` object. -/
def applyEvent (p : Process) : ProcEvent → Process
  | ProcEvent.stdoutData chunk => { p with stdout := p.stdout ++ chunk }
  | ProcEvent.stderrData chunk => { p with stderr := p.stderr ++ chunk }
  | ProcEvent.exited code =>
    { p with status := ProcStatus.terminated, exitCode := code }
  | ProcEvent.errored msg =>
    { p with status := ProcStatus.terminated, exitCode := some 1,
             stderr := p.stderr ++ "\nProcess error: " ++ msg }
  | ProcEvent.killMarked =>
    { p with status := ProcStatus.terminated, exitCode := some 143 }

/-- Fold a sequence of lifecycle events over an entity. -/
def runEvents (p : Process) (es : List ProcEvent) : Process :=
  es.foldl applyEvent p

/-- The entity as both backends construct it at `spawn`, before any
event: status `running`, no exit code, empty accumulators. -/
def initProc (pid command cwd : String) (tty : Bool) (createdAt : Nat)
    (terminal : Option (List String)) : Process :=
  { pid := pid, command := command, cwd := cwd, tty := tty
    createdAt := createdAt, status := ProcStatus.running, exitCode := none
    stdout := "", stderr := "", stdinWritten := "", terminal := terminal }

/-- An entity state reachable from creation by some event sequence. -/
def ReachableProc (p : Process) : Prop :=
  ∃ pid command cwd tty createdAt terminal es,
    p = runEvents (initProc pid command cwd tty createdAt terminal) es

/-! ## Registry pruning: helper lemmas -/

/-- The predicate a registry entry must satisfy to survive the deletion
loop of `pruneTerminated` with dropped list `ds`. -/
def notDropped (ds : List Process) (q : Process) : Bool :=
  ds.all (fun p => q.pid ≠ p.pid)

lemma foldl_erase_eq_filter (ds : List Process) (reg : Registry) :
    ds.foldl (fun r p => Registry.eraseKey r p.pid) reg
      = reg.filter (notDropped ds) := by
  induction ds generalizing reg with
  | nil =>
    rw [List.foldl_nil]
    exact (List.filter_eq_self.mpr (by intro a _; simp [notDropped])).symm
  | cons d ds ih =>
    rw [List.foldl_cons, ih, Registry.eraseKey, List.filter_filter]
    refine List.filter_congr ?_
    intro a _
    simp [notDropped, Bool.and_comm]

lemma notDropped_eq_false_of_mem {ds : List Process} {q : Process} (h : q ∈ ds) :
    notDropped ds q = false := by
  simp only [notDropped, List.all_eq_false]
  exact ⟨q, h, by simp⟩

lemma notDropped_false_iff {ds : List Process} {q : Process} :
    notDropped ds q = false ↔ ∃ d ∈ ds, q.pid = d.pid := by
  simp [notDropped]

lemma pruneTerminated_eq_filter (reg : Registry) :
    pruneTerminated reg =
      reg.filter (notDropped ((terminatedSorted reg).drop maxTerminatedProcesses)) := by
  rw [pruneTerminated, foldl_erase_eq_filter]

lemma prune_count (reg : Registry) :
    ((pruneTerminated reg).filter (fun q => q.status = ProcStatus.terminated)).length
      ≤ maxTerminatedProcesses := by
  set ds := (terminatedSorted reg).drop maxTerminatedProcesses with hds
  rw [pruneTerminated_eq_filter, List.filter_filter]
  have hcomm : reg.filter (fun a => decide (a.status = ProcStatus.terminated) && notDropped ds a)
      = (reg.filter (fun a => a.status = ProcStatus.terminated)).filter (notDropped ds) := by
    rw [List.filter_filter]
    exact List.filter_congr (by intro a _; rw [Bool.and_comm])
  rw [hcomm]
  have hperm : (reg.filter (fun a => a.status = ProcStatus.terminated)).Perm (terminatedSorted reg) :=
    (List.perm_insertionSort moreRecent _).symm
  have hlen : ((reg.filter (fun a => a.status = ProcStatus.terminated)).filter (notDropped ds)).length
      = ((terminatedSorted reg).filter (notDropped ds)).length :=
    (hperm.filter (notDropped ds)).length_eq
  rw [hlen]
  have hsplit : terminatedSorted reg
      = (terminatedSorted reg).take maxTerminatedProcesses ++ ds :=
    (List.take_append_drop _ _).symm
  rw [hsplit, List.filter_append]
  have hnil : ds.filter (notDropped ds) = [] :=
    List.filter_eq_nil_iff.mpr (by
      intro a ha
      simp [notDropped_eq_false_of_mem ha])
  rw [hnil, List.append_nil]
  calc (((terminatedSorted reg).take maxTerminatedProcesses).filter (notDropped ds)).length
      ≤ ((terminatedSorted reg).take maxTerminatedProcesses).length := List.length_filter_le _ _
    _ ≤ maxTerminatedProcesses := by simp [List.length_take]

lemma mem_drop_terminated {reg : Registry} {d : Process}
    (h : d ∈ (terminatedSorted reg).drop maxTerminatedProcesses) :
    d ∈ reg ∧ d.status = ProcStatus.terminated := by
  have h1 : d ∈ terminatedSorted reg := List.drop_subset _ _ h
  have h2 : d ∈ reg.filter (fun p => p.status = ProcStatus.terminated) :=
    (List.mem_insertionSort moreRecent).mp h1
  have := List.mem_filter.mp h2
  exact ⟨this.1, by simpa using this.2⟩

lemma prune_keeps_running {reg : Registry} (hnd : (reg.map Process.pid).Nodup)
    {q : Process} (hq : q ∈ reg) (hrun : q.status = ProcStatus.running) :
    q ∈ pruneTerminated reg := by
  rw [pruneTerminated_eq_filter]
  refine List.mem_filter.mpr ⟨hq, ?_⟩
  by_contra hfalse
  have : notDropped ((terminatedSorted reg).drop maxTerminatedProcesses) q = false := by
    revert hfalse
    cases notDropped ((terminatedSorted reg).drop maxTerminatedProcesses) q <;> simp
  obtain ⟨d, hd, hpid⟩ := notDropped_false_iff.mp this
  obtain ⟨hdreg, hdterm⟩ := mem_drop_terminated hd
  have : q = d := List.inj_on_of_nodup_map hnd hq hdreg hpid
  rw [this, hdterm] at hrun
  cases hrun

lemma prune_keeps_most_recent {reg : Registry} (hnd : (reg.map Process.pid).Nodup)
    {q r : Process} (hq : q ∈ pruneTerminated reg) (hqterm : q.status = ProcStatus.terminated)
    (hr : r ∈ reg) (hrout : r ∉ pruneTerminated reg) :
    r.createdAt ≤ q.createdAt := by
  set ds := (terminatedSorted reg).drop maxTerminatedProcesses with hds
  rw [pruneTerminated_eq_filter] at hq hrout
  obtain ⟨hqreg, hqkeep⟩ := List.mem_filter.mp hq
  have hqts : q ∈ terminatedSorted reg :=
    (List.mem_insertionSort moreRecent).mpr
      (List.mem_filter.mpr ⟨hqreg, by simp [hqterm]⟩)
  have hqnotds : q ∉ ds := fun hmem => by
    rw [notDropped_eq_false_of_mem hmem] at hqkeep
    cases hqkeep
  have hqtake : q ∈ (terminatedSorted reg).take maxTerminatedProcesses := by
    have := (List.take_append_drop maxTerminatedProcesses (terminatedSorted reg)).symm
    rw [this] at hqts
    rcases List.mem_append.mp hqts with h | h
    · exact h
    · exact absurd h hqnotds
  have hrkeep : notDropped ds r = false := by
    by_contra hc
    have : notDropped ds r = true := by
      revert hc
      cases notDropped ds r <;> simp
    exact hrout (List.mem_filter.mpr ⟨hr, this⟩)
  obtain ⟨d, hd, hpid⟩ := notDropped_false_iff.mp hrkeep
  obtain ⟨hdreg, _⟩ := mem_drop_terminated hd
  have hrd : r = d := List.inj_on_of_nodup_map hnd hr hdreg hpid
  have hsorted : List.Sorted moreRecent (terminatedSorted reg) :=
    List.sorted_insertionSort moreRecent _
  have hsplit : (terminatedSorted reg).take maxTerminatedProcesses ++ ds = terminatedSorted reg :=
    List.take_append_drop _ _
  rw [← hsplit] at hsorted
  have := (List.pairwise_append.mp hsorted).2.2 q hqtake d hd
  rw [hrd]
  exact this

lemma nodup_pid_set {reg : Registry} (p : Process) (hnd : (reg.map Process.pid).Nodup) :
    ((Registry.set reg p).map Process.pid).Nodup := by
  rw [Registry.set]
  by_cases hany : reg.any (fun q => q.pid = p.pid)
  · rw [if_pos hany]
    have : (reg.map (fun q => if q.pid = p.pid then p else q)).map Process.pid
        = reg.map Process.pid := by
      rw [List.map_map]
      refine List.map_congr_left ?_
      intro a _
      by_cases h : a.pid = p.pid
      · simp [Function.comp, h]
      · simp [Function.comp, h]
    rw [this]
    exact hnd
  · rw [if_neg hany]
    rw [List.map_append, List.nodup_append]
    refine ⟨hnd, List.nodup_singleton _, ?_⟩
    intro a ha
    simp only [List.map_cons, List.map_nil, List.mem_singleton]
    intro heq
    apply hany
    rw [List.any_eq_true]
    obtain ⟨b, hb, hab⟩ := List.mem_map.mp ha
    exact ⟨b, hb, by simp [hab, heq]⟩

/-! ## Concrete entities used by witnesses -/

/-- A terminated entity with the given pid and creation time. -/
def termProc (pid : String) (t : Nat) : Process :=
  { initProc pid "cmd" "/home/agent" false t none with
      status := ProcStatus.terminated, exitCode := some 0 }

/-- A running entity in the witness registry. -/
def c1Running : Process := initProc "host-7" "sleep 1000" "/home/agent" false 3 none

/-- A witness registry: six terminated entities and one running one. -/
def c1Reg : Registry :=
  [termProc "host-1" 1, termProc "host-2" 2, termProc "host-3" 3,
   termProc "host-4" 4, termProc "host-5" 5, termProc "host-6" 6, c1Running]

/-- A seventh terminated entity, whose insertion must evict the oldest. -/
def c1New : Process := termProc "host-8" 7

/-- A plain running non-TTY entity. -/
def plainProc : Process := initProc "host-1" "echo hi" "/home/agent" false 0 none

/-- A non-TTY entity with a few lines of accumulated output. -/
def c9Proc : Process := { plainProc with stdout := "a\nb\nc", stderr := "e1\ne2" }

/-- A non-TTY entity with two lines of stdout. -/
def c5Proc : Process := { plainProc with stdout := "a\nb" }

/-- 150 newline-separated lines. -/
def lines150 : String :=
  String.intercalate "\n" ((List.range 150).map (fun i => "L" ++ toString i))

/-- The last 10 of those 150 lines, joined by newlines. -/
def last10of150 : String :=
  String.intercalate "\n" (((List.range 150).map (fun i => "L" ++ toString i)).drop 140)

/-- A non-TTY entity whose stdout holds 150 newline-separated lines. -/
def c150Proc : Process := { plainProc with stdout := lines150 }

/-- A running TTY entity with a terminal attached. -/
def ttyProc : Process := initProc "host-2" "bash" "/home/agent" true 1 (some ["$ "])

/-- A terminated TTY entity. -/
def ttyTermProc : Process :=
  { ttyProc with pid := "host-3", status := ProcStatus.terminated, exitCode := some 0 }

/-- A terminated non-TTY entity. -/
def nonTtyTermProc : Process :=
  { plainProc with pid := "host-4", status := ProcStatus.terminated, exitCode := some 0 }

/-- A running non-TTY entity with partial output, registered with a live
child transport. -/
def c2Proc : Process :=
  { initProc "host-5" "sleep 60" "/home/agent" false 2 none with stdout := "partial" }

/-- Host-executor state holding `c2Proc` and its live transport. -/
def c2St : HostState := ⟨[c2Proc], ["host-5"]⟩

/-- An entity whose transport exited without reporting a code
(`exit` event with `code = null`). -/
def killedNoCodeProc : Process :=
  runEvents (initProc "host-6" "sleep 100" "/home/agent" false 0 none)
    [ProcEvent.exited none]

/-- A running entity registered in the container backend. -/
def c8Proc : Process := initProc "docker-1" "sleep 100" "/home/agent" false 0 none

/-- Container-backend state holding `c8Proc` and its live exec stream. -/
def c8St : DockerState := ⟨[c8Proc], [⟨"docker-1", false⟩]⟩

/-- A string of 8200 characters, exceeding the truncation budget. -/
def longOut : String := String.mk (List.replicate 8200 'x')

/-! ## Claims -/

/-- **C1.** For every registry (with unique pids, the `Map` key
invariant), after any insertion: at most 5 entities with status
`terminated` remain; no entity with status `running` is removed by the
pruning; and the retained terminated entities are the most recent by
creation time — every evicted entity's `createdAt` is at most every
retained terminated entity's `createdAt`. -/
theorem registryAdd_prunes (reg : Registry) (p : Process)
    (hnd : (reg.map Process.pid).Nodup) :
    (((registryAdd reg p).filter (fun q => q.status = ProcStatus.terminated)).length
        ≤ maxTerminatedProcesses)
    ∧ (∀ q ∈ Registry.set reg p, q.status = ProcStatus.running →
        q ∈ registryAdd reg p)
    ∧ (∀ q ∈ registryAdd reg p, q.status = ProcStatus.terminated →
        ∀ r ∈ Registry.set reg p, r ∉ registryAdd reg p →
          r.createdAt ≤ q.createdAt) := by
  have hnd' := nodup_pid_set p hnd
  refine ⟨prune_count _, ?_, ?_⟩
  · intro q hq hrun
    exact prune_keeps_running hnd' hq hrun
  · intro q hq hqterm r hr hrout
    exact prune_keeps_most_recent hnd' hq hqterm hr hrout

/-- Witness for C1: inserting a seventh terminated entity into a
registry of six terminated and one running entity leaves at most five
terminated entities and keeps the running one. -/
theorem registryAdd_prunes_witness :
    (((registryAdd c1Reg c1New).filter (fun q => q.status = ProcStatus.terminated)).length
        ≤ maxTerminatedProcesses)
    ∧ c1Running ∈ registryAdd c1Reg c1New :=
  ⟨(registryAdd_prunes c1Reg c1New (by decide)).1,
   (registryAdd_prunes c1Reg c1New (by decide)).2.1 c1Running (by decide) rfl⟩

lemma replaceEscape_id (esc ctl : Char) (l : List Char) (h : '\\' ∉ l) :
    replaceEscape esc ctl l = l := by
  induction l with
  | nil => rfl
  | cons a tl ih =>
    have ha : a ≠ '\\' := fun e => h (e ▸ List.mem_cons_self a tl)
    have htl : '\\' ∉ tl := fun m => h (List.mem_cons_of_mem a m)
    cases tl with
    | nil => rfl
    | cons b rest =>
      rw [replaceEscape, if_neg (by simp [ha]), ih htl]

lemma replaceHexEscape_id (l : List Char) (h : '\\' ∉ l) :
    replaceHexEscape l = l := by
  induction l with
  | nil => rfl
  | cons a tl ih =>
    have ha : a ≠ '\\' := fun e => h (e ▸ List.mem_cons_self a tl)
    have htl : '\\' ∉ tl := fun m => h (List.mem_cons_of_mem a m)
    rw [replaceHexEscape.eq_def]
    split
    · rename_i h1 h2 rest heq
      injection heq with hac _
      exact absurd hac ha
    · rename_i c rest hno heq
      injection heq with hac htl2
      subst hac
      subst htl2
      rw [ih htl]
    · rename_i heq
      cases heq

lemma replaceUnicodeEscape_id (l : List Char) (h : '\\' ∉ l) :
    replaceUnicodeEscape l = l := by
  induction l with
  | nil => rfl
  | cons a tl ih =>
    have ha : a ≠ '\\' := fun e => h (e ▸ List.mem_cons_self a tl)
    have htl : '\\' ∉ tl := fun m => h (List.mem_cons_of_mem a m)
    rw [replaceUnicodeEscape.eq_def]
    split
    · rename_i h1 h2 h3 h4 rest heq
      injection heq with hac _
      exact absurd hac ha
    · rename_i c rest hno heq
      injection heq with hac htl2
      subst hac
      subst htl2
      rw [ih htl]
    · rename_i heq
      cases heq

/-- **C3 counterexample.** Decoding is not idempotent: on the
5-character input `\x5Cn` one decode yields the 2-character `\n`
(backslash, n) and a second decode turns that into a newline. Nor is
the chain of five sequential passes a single priority-ordered forward
pass: on `\x5Cu0041` the `\x` pass manufactures a `A` sequence
that the later `\u` pass then consumes, yielding `A`, while a single
forward pass leaves `A`. And the 7-character input `a\\x41b`
decodes to `a\Ab`, not `aAb` (only the 6-character `a\x41b` yields
`aAb`, see the amended theorem). -/
theorem parseEscapeSequences_counterexample :
    parseEscapeSequences (parseEscapeSequences "\\x5Cn") ≠ parseEscapeSequences "\\x5Cn"
    ∧ parseEscapeSequences "\\x5Cu0041" = "A"
    ∧ String.mk (specSinglePassDecode "\\x5Cu0041".data) = "\\u0041"
    ∧ parseEscapeSequences "\\x5Cu0041" ≠ String.mk (specSinglePassDecode "\\x5Cu0041".data)
    ∧ ("a\\\\x41b" : String).length = 7
    ∧ parseEscapeSequences "a\\\\x41b" = "a\\Ab"
    ∧ ("a\\Ab" : String) ≠ "aAb" := by
  refine ⟨by decide, by decide, by decide, by decide, by decide, by decide, by decide⟩

/-- **C3 (amended).** Decoding is five sequential global replacement
passes (`\n`, `\r`, `\t`, `\xHH`, `\uHHHH`, in source order), each
operating on the previous pass's output. On strings containing no
backslash it is the identity, hence idempotent there; decoding the
6-character input `a\x41b` yields `aAb`. -/
theorem parseEscapeSequences_amended (s : String) (h : '\\' ∉ s.data) :
    parseEscapeSequences s = s
    ∧ parseEscapeSequences (parseEscapeSequences s) = parseEscapeSequences s
    ∧ parseEscapeSequences "a\\x41b" = "aAb" := by
  have hid : parseEscapeSequences s = s := by
    rw [parseEscapeSequences, replaceEscape_id _ _ _ h, replaceEscape_id _ _ _ h,
      replaceEscape_id _ _ _ h, replaceHexEscape_id _ h, replaceUnicodeEscape_id _ h]
  exact ⟨hid, by rw [hid]; exact hid, by decide⟩

/-- Witness for C3 (amended): a backslash-free string decodes to
itself. -/
theorem parseEscapeSequences_amended_witness :
    parseEscapeSequences "hello" = "hello" :=
  (parseEscapeSequences_amended "hello" (by decide)).1

/-- **C10.** `truncateOutput` on input longer than 8196 characters
returns exactly the final 8196 characters followed by the 16-character
marker `"\n... (truncated)"`, for a total length of 8212 — which
exceeds the 8196 budget; input of length at most 8196 is returned
unchanged. -/
theorem truncateOutput_exact (s : String) :
    (s.length ≤ 8196 → truncateOutput s = s)
    ∧ (8196 < s.length →
        truncateOutput s = sliceLastChars 8196 s ++ "\n... (truncated)"
        ∧ ("\n... (truncated)" : String).length = 16
        ∧ (sliceLastChars 8196 s).length = 8196
        ∧ (truncateOutput s).length = 8212
        ∧ 8196 < (truncateOutput s).length) := by
  have hout : OUTPUT_TRUNCATE = 8196 := rfl
  constructor
  · intro hle
    rw [truncateOutput, hout, if_pos hle]
  · intro hgt
    have hnot : ¬ s.length ≤ 8196 := by omega
    have heq : truncateOutput s = sliceLastChars 8196 s ++ "\n... (truncated)" := by
      rw [truncateOutput, hout, if_neg hnot]
    have hslice : (sliceLastChars 8196 s).length = 8196 := by
      rw [sliceLastChars]
      show (s.data.drop (s.data.length - 8196)).length = 8196
      rw [List.length_drop]
      have : 8196 ≤ s.data.length := by
        have hds : s.length = s.data.length := rfl
        omega
      omega
    have hlen : (truncateOutput s).length = 8212 := by
      have hm : ("\n... (truncated)" : String).length = 16 := rfl
      rw [heq, String.length_append, hslice, hm]
    exact ⟨heq, by decide, hslice, hlen, by omega⟩

lemma longOut_big : 8196 < longOut.length := by
  have : longOut.length = 8200 := by
    show (List.replicate 8200 'x').length = 8200
    rw [List.length_replicate]
  omega

/-- Witness for C10: the short string `"ok"` passes through unchanged;
a string of 8200 `x`s truncates to length 8212. -/
theorem truncateOutput_exact_witness :
    truncateOutput "ok" = "ok" ∧ (truncateOutput longOut).length = 8212 :=
  ⟨(truncateOutput_exact "ok").1 (by decide),
   ((truncateOutput_exact longOut).2 longOut_big).2.2.2.1⟩

/-- **C6.** Every spawn result's `stdout`/`stderr` goes through
`truncateOutput`, which keeps text at or under the 8196-character
budget unchanged (no marker appended) and otherwise keeps the trailing
8196-character window with the truncation marker appended, so the
returned text ends with the marker and its length is bounded by
8196 + 16. -/
theorem spawn_result_truncated (p : Process) (s : String) :
    (foregroundResult p).stdout
        = truncateOutput (if p.tty then getTerminalBuffer p else p.stdout)
    ∧ (foregroundResult p).stderr = truncateOutput p.stderr
    ∧ (backgroundResult p).stdout = truncateOutput p.stdout
    ∧ (backgroundResult p).stderr = truncateOutput p.stderr
    ∧ (s.length ≤ OUTPUT_TRUNCATE → truncateOutput s = s)
    ∧ (OUTPUT_TRUNCATE < s.length →
        "\n... (truncated)".data <:+ (truncateOutput s).data
        ∧ (truncateOutput s).length ≤ OUTPUT_TRUNCATE + 16) := by
  have hout : OUTPUT_TRUNCATE = 8196 := rfl
  refine ⟨rfl, rfl, rfl, rfl, ?_, ?_⟩
  · intro hle
    rw [truncateOutput, if_pos hle]
  · intro hgt
    have hnot : ¬ s.length ≤ OUTPUT_TRUNCATE := by omega
    have heq : truncateOutput s = sliceLastChars OUTPUT_TRUNCATE s ++ "\n... (truncated)" := by
      rw [truncateOutput, if_neg hnot]
    constructor
    · refine ⟨(sliceLastChars OUTPUT_TRUNCATE s).data, ?_⟩
      rw [heq]
      exact (String.data_append _ _).symm
    · have hslice : (sliceLastChars OUTPUT_TRUNCATE s).length ≤ OUTPUT_TRUNCATE := by
        rw [sliceLastChars]
        show (s.data.drop (s.data.length - OUTPUT_TRUNCATE)).length ≤ OUTPUT_TRUNCATE
        rw [List.length_drop]
        omega
      have hm : ("\n... (truncated)" : String).length = 16 := rfl
      rw [heq, String.length_append, hm]
      omega

/-- Witness for C6: a short string passes through without a marker; a
long string's truncation carries the marker as a suffix. -/
theorem spawn_result_truncated_witness :
    truncateOutput "hello world" = "hello world"
    ∧ "\n... (truncated)".data <:+ (truncateOutput longOut).data :=
  ⟨(spawn_result_truncated plainProc "hello world").2.2.2.2.1 (by decide),
   ((spawn_result_truncated plainProc longOut).2.2.2.2.2 longOut_big).1⟩

lemma splitNlChars_ne_nil (l : List Char) : splitNlChars l ≠ [] := by
  induction l with
  | nil => simp [splitNlChars]
  | cons c rest ih =>
    by_cases hc : c = '\n'
    · subst hc
      simp [splitNlChars]
    · rw [splitNlChars.eq_def]
      split
      · simp
      · simp
      · split
        · simp
        · simp

lemma splitNlChars_cons_ne (c : Char) (rest : List Char) (hc : c ≠ '\n') :
    splitNlChars (c :: rest) =
      match splitNlChars rest with
      | [] => [[c]]
      | g :: gs => (c :: g) :: gs := by
  rw [splitNlChars.eq_def]
  split
  · rename_i heq
    cases heq
  · rename_i rest' heq
    injection heq with h1 h2
    exact absurd h1 hc
  · rename_i c' rest' hne heq
    injection heq with h1 h2
    subst h1
    subst h2
    rfl

lemma joinNl_splitNl (l : List Char) : joinNlChars (splitNlChars l) = l := by
  induction l with
  | nil => rfl
  | cons c rest ih =>
    by_cases hc : c = '\n'
    · subst hc
      rw [show splitNlChars ('\n' :: rest) = [] :: splitNlChars rest from rfl]
      cases hsp : splitNlChars rest with
      | nil => exact absurd hsp (splitNlChars_ne_nil rest)
      | cons g gs =>
        have : joinNlChars ([] :: g :: gs) = [] ++ '\n' :: joinNlChars (g :: gs) := rfl
        rw [this, ← hsp, ih]
        rfl
    · rw [splitNlChars_cons_ne c rest hc]
      cases hsp : splitNlChars rest with
      | nil => exact absurd hsp (splitNlChars_ne_nil rest)
      | cons g gs =>
        rw [hsp] at ih
        cases gs with
        | nil =>
          have hg : joinNlChars [g] = g := rfl
          rw [hg] at ih
          show joinNlChars [c :: g] = c :: rest
          have : joinNlChars [c :: g] = c :: g := rfl
          rw [this, ih]
        | cons g2 gs2 =>
          show joinNlChars ((c :: g) :: g2 :: gs2) = c :: rest
          have h1 : joinNlChars ((c :: g) :: g2 :: gs2)
              = (c :: g) ++ '\n' :: joinNlChars (g2 :: gs2) := rfl
          have h2 : joinNlChars (g :: g2 :: gs2)
              = g ++ '\n' :: joinNlChars (g2 :: gs2) := rfl
          rw [h1]
          rw [h2] at ih
          rw [← ih]
          rfl

lemma windowLines_zero (s : String) : windowLines 0 s = s := by
  rw [windowLines, jsSliceLast, if_pos rfl, joinNl_splitNl]

lemma windowLines_pos (lines : Nat) (h : 1 ≤ lines) (s : String) :
    windowLines lines s = specWindow lines s := by
  rw [windowLines, specWindow, jsSliceLast, if_neg (by omega)]

/-- **C9.** The output-read operation with `lines = 0` returns the
entire stdout and stderr: JS `slice(-0)` is `slice(0)`, the whole
array of segments, and re-joining the full split reproduces the text
exactly. -/
theorem stdoutOp_zero_lines (reg : Registry) (pid : String) (p : Process)
    (h : Registry.get reg pid = some p) :
    stdoutOp reg pid 0 = Result.ok ⟨readSource p, p.stderr⟩ := by
  rw [stdoutOp.eq_def, h]
  show Result.ok (ReadOutput.mk (windowLines 0 (readSource p)) (windowLines 0 p.stderr)) = _
  rw [windowLines_zero, windowLines_zero]

/-- Witness for C9: reading with `lines = 0` from a registry holding an
entity with three stdout lines and two stderr lines returns all of
them. -/
theorem stdoutOp_zero_lines_witness :
    stdoutOp [c9Proc] "host-1" 0 = Result.ok ⟨"a\nb\nc", "e1\ne2"⟩ :=
  stdoutOp_zero_lines [c9Proc] "host-1" c9Proc rfl

/-- **C5 counterexample.** The claim's windowing ("the final N segments
obtained by splitting on newline") fails at `lines = 0`: the code's
`slice(-0)` keeps every segment, so `readOutput(id, 0)` on a two-line
stdout returns both lines, while the final 0 segments joined give the
empty string. -/
theorem stdoutOp_window_counterexample :
    stdoutOp [c5Proc] "host-1" 0 = Result.ok ⟨"a\nb", ""⟩
    ∧ specWindow 0 "a\nb" = ""
    ∧ ("a\nb" : String) ≠ "" :=
  ⟨by decide, by decide, by decide⟩

/-- **C5 (amended).** `readOutput(id, lines)` fails `process_not_found`
for an unknown id; otherwise, for `lines ≥ 1`, the returned stdout is
the rendered terminal buffer for a TTY process and the raw accumulated
stdout for a non-TTY process, and both streams are windowed to the
final `lines` segments obtained by splitting on newline (at
`lines = 0` the code returns every segment instead, see the
counterexample); for a stdout of 150 newline-separated lines,
`readOutput(id, 10)` returns exactly the last 10 lines joined by
newlines. -/
theorem stdoutOp_spec (reg : Registry) (pid : String) (lines : Nat) :
    (Registry.get reg pid = none →
      stdoutOp reg pid lines
        = Result.err ErrCode.process_not_found ("Process " ++ pid ++ " not found"))
    ∧ (∀ p, Registry.get reg pid = some p → 1 ≤ lines →
        stdoutOp reg pid lines
          = Result.ok ⟨specWindow lines (readSource p), specWindow lines p.stderr⟩)
    ∧ (∀ p : Process, p.tty = false → readSource p = p.stdout)
    ∧ (∀ (p : Process) (ls : List String), p.tty = true → p.terminal = some ls →
        readSource p = getTerminalBuffer p)
    ∧ stdoutOp [c150Proc] "host-1" 10 = Result.ok ⟨last10of150, ""⟩ := by
  refine ⟨?_, ?_, ?_, ?_, ?_⟩
  · intro h
    rw [stdoutOp.eq_def, h]
  · intro p hp hl
    rw [stdoutOp.eq_def, hp]
    show Result.ok (ReadOutput.mk (windowLines lines (readSource p)) (windowLines lines p.stderr)) = _
    rw [windowLines_pos lines hl, windowLines_pos lines hl]
  · intro p h
    rw [readSource, h]
    simp
  · intro p ls h1 h2
    rw [readSource, h1, h2]
    simp
  · decide

/-- Witness for C5 (amended): an unknown id fails, and a two-line read
from a three-line stdout returns the final two segments. -/
theorem stdoutOp_spec_witness :
    stdoutOp [] "nope" 100
      = Result.err ErrCode.process_not_found "Process nope not found"
    ∧ stdoutOp [c9Proc] "host-1" 2
      = Result.ok ⟨specWindow 2 (readSource c9Proc), specWindow 2 c9Proc.stderr⟩ :=
  ⟨(stdoutOp_spec [] "nope" 100).1 rfl,
   (stdoutOp_spec [c9Proc] "host-1" 2).2.1 c9Proc rfl (by omega)⟩

/-- **C7.** `sendInput(id, text)`: unknown id fails `process_not_found`;
a target created without `tty` fails `not_tty` — this check precedes the
status check, so it fires even for a terminated non-TTY process; a
terminated TTY target fails `process_terminated`; otherwise the call
succeeds and the escape-decoded bytes are written to the entity's input
stream. -/
theorem stdinOp_spec (reg : Registry) (pid input : String) :
    (Registry.get reg pid = none →
      stdinOp reg pid input
        = (Result.err ErrCode.process_not_found ("Process " ++ pid ++ " not found"), reg))
    ∧ (∀ p, Registry.get reg pid = some p → p.tty = false →
        stdinOp reg pid input
          = (Result.err ErrCode.not_tty
              "Process is not in TTY mode. Only TTY processes can receive stdin.", reg))
    ∧ (∀ p, Registry.get reg pid = some p → p.tty = true →
        p.status = ProcStatus.terminated →
        stdinOp reg pid input
          = (Result.err ErrCode.process_terminated "Process has already terminated", reg))
    ∧ (∀ p, Registry.get reg pid = some p → p.tty = true →
        p.status = ProcStatus.running →
        stdinOp reg pid input
          = (Result.ok (), Registry.modify reg pid (fun q =>
              { q with stdinWritten := q.stdinWritten ++ parseEscapeSequences input }))) := by
  refine ⟨?_, ?_, ?_, ?_⟩
  · intro h
    rw [stdinOp.eq_def, h]
  · intro p hp htty
    rw [stdinOp.eq_def, hp]
    simp [htty]
  · intro p hp htty hterm
    rw [stdinOp.eq_def, hp]
    simp [htty, hterm]
  · intro p hp htty hrun
    rw [stdinOp.eq_def, hp]
    simp [htty, hrun]

/-- Witness for C7: the four branches at concrete registries — note the
`not_tty` branch fires on a *terminated* non-TTY process. -/
theorem stdinOp_spec_witness :
    stdinOp [] "ghost" "hi"
      = (Result.err ErrCode.process_not_found "Process ghost not found", [])
    ∧ stdinOp [nonTtyTermProc] "host-4" "hi"
      = (Result.err ErrCode.not_tty
          "Process is not in TTY mode. Only TTY processes can receive stdin.",
         [nonTtyTermProc])
    ∧ stdinOp [ttyTermProc] "host-3" "hi"
      = (Result.err ErrCode.process_terminated "Process has already terminated",
         [ttyTermProc])
    ∧ stdinOp [ttyProc] "host-2" "a\\x41b"
      = (Result.ok (), Registry.modify [ttyProc] "host-2" (fun q =>
          { q with stdinWritten := q.stdinWritten ++ parseEscapeSequences "a\\x41b" })) :=
  ⟨(stdinOp_spec [] "ghost" "hi").1 rfl,
   (stdinOp_spec [nonTtyTermProc] "host-4" "hi").2.1 nonTtyTermProc rfl rfl,
   (stdinOp_spec [ttyTermProc] "host-3" "hi").2.2.1 ttyTermProc rfl rfl rfl,
   (stdinOp_spec [ttyProc] "host-2" "a\\x41b").2.2.2 ttyProc rfl rfl rfl⟩

/-- **C2.** With `background=false`, spawn races completion against a
timer of `min(timeoutMs, 60000)` ms. When the timer wins — so the
completion handler has not run and the entity is still `running` — the
call returns `status=running` with the output accumulated so far
(truncated; rendered buffer when TTY), and performs no cancellation:
executor state is untouched, the entity stays in the registry with its
completion handling attached, exactly the post-state of a
`background=true` call. -/
theorem spawn_timeout_backgrounds (st : HostState) (p : Process) (timeoutMs : Nat)
    (hmem : Registry.get st.registry p.pid = some p)
    (hrun : p.status = ProcStatus.running) :
    actualTimeout timeoutMs = min timeoutMs 60000
    ∧ actualTimeout timeoutMs ≤ 60000
    ∧ (spawnReturn st p false).1.status = ProcStatus.running
    ∧ (spawnReturn st p false).1.stdout
        = truncateOutput (if p.tty then getTerminalBuffer p else p.stdout)
    ∧ (spawnReturn st p false).1.stderr = truncateOutput p.stderr
    ∧ (spawnReturn st p false).2 = st
    ∧ Registry.get (spawnReturn st p false).2.registry p.pid = some p
    ∧ (spawnReturn st p false).2 = (spawnReturn st p true).2 := by
  refine ⟨rfl, ?_, ?_, rfl, rfl, rfl, hmem, rfl⟩
  · exact Nat.min_le_right _ _
  · simp [spawnReturn, foregroundResult, hrun]

/-- Witness for C2: a 100-second timeout is clamped to 60 s, and the
foreground return on a still-running entity reports `running`. -/
theorem spawn_timeout_backgrounds_witness :
    actualTimeout 100000 ≤ 60000
    ∧ (spawnReturn c2St c2Proc false).1.status = ProcStatus.running :=
  ⟨(spawn_timeout_backgrounds c2St c2Proc 100000 rfl rfl).2.1,
   (spawn_timeout_backgrounds c2St c2Proc 100000 rfl rfl).2.2.1⟩

/-- **C4 counterexample.** A reachable entity can be `terminated` with
no `exitCode`: the transport's `exit` handler stores `code ?? undefined`,
and the code is absent when the process was killed before reporting one
— so "terminated implies exitCode set" fails. -/
theorem exitCode_iff_counterexample :
    ReachableProc killedNoCodeProc
    ∧ killedNoCodeProc.status = ProcStatus.terminated
    ∧ killedNoCodeProc.exitCode = none :=
  ⟨⟨"host-6", "sleep 100", "/home/agent", false, 0, none,
    [ProcEvent.exited none], rfl⟩, rfl, rfl⟩

/-- **C4 (amended).** For every reachable entity, `exitCode` is only
set when `status = terminated`: a running entity never has an
`exitCode`, and a set `exitCode` implies `terminated`. (A terminated
entity may still lack an `exitCode` when the transport reported no code
— see the counterexample.) -/
theorem exitCode_only_when_terminated (p : Process) (h : ReachableProc p) :
    (p.status = ProcStatus.running → p.exitCode = none)
    ∧ (p.exitCode ≠ none → p.status = ProcStatus.terminated) := by
  obtain ⟨pid, command, cwd, tty, createdAt, terminal, es, rfl⟩ := h
  have key : ∀ (es : List ProcEvent) (q : Process),
      (q.status = ProcStatus.running → q.exitCode = none) →
      ((runEvents q es).status = ProcStatus.running →
        (runEvents q es).exitCode = none) := by
    intro es
    induction es with
    | nil => intro q hq; exact hq
    | cons e es ih =>
      intro q hq
      have step : runEvents q (e :: es) = runEvents (applyEvent q e) es := rfl
      rw [step]
      apply ih
      cases e with
      | stdoutData s => intro hs; exact hq hs
      | stderrData s => intro hs; exact hq hs
      | exited c => intro hs; simp [applyEvent] at hs
      | errored m => intro hs; simp [applyEvent] at hs
      | killMarked => intro hs; simp [applyEvent] at hs
  have h1 := key es (initProc pid command cwd tty createdAt terminal) (fun _ => rfl)
  refine ⟨h1, ?_⟩
  intro hne
  cases hst : (runEvents (initProc pid command cwd tty createdAt terminal) es).status with
  | running => exact absurd (h1 hst) hne
  | terminated => rfl

/-- Witness for C4 (amended): a freshly created entity is running with
no exit code. -/
theorem exitCode_only_when_terminated_witness :
    (runEvents (initProc "host-1" "echo hi" "/home/agent" false 0 none) []).exitCode
      = none :=
  (exitCode_only_when_terminated _
    ⟨"host-1", "echo hi", "/home/agent", false, 0, none, [], rfl⟩).1 rfl

/-- **C8 counterexample.** `DockerExecutor.kill` writes exit code 143
(`128 + 15`, SIGTERM's code) unconditionally: killing a running process
with `signal="SIGKILL"` still records 143, not the conventional code
137 corresponding to the delivered signal. -/
theorem dockerKill_counterexample :
    (dockerKill c8St "docker-1" "SIGKILL").1 = Result.ok ()
    ∧ Registry.get (dockerKill c8St "docker-1" "SIGKILL").2.registry "docker-1"
        = some { c8Proc with status := ProcStatus.terminated, exitCode := some 143 }
    ∧ conventionalExitCode "SIGKILL" = some 137
    ∧ (some (143 : Int) : Option Int) ≠ some 137 :=
  ⟨by decide, by decide, by decide, by decide⟩

/-- **C8 (amended).** `DockerExecutor.kill`: unknown id fails
`process_not_found`; an already-finished process fails
`process_terminated`; a running registered process whose local exec
stream is missing fails `stream_not_found`; otherwise — for every
signal argument — the local exec stream is destroyed and the entity is
marked `terminated` with exit code 143 (SIGTERM's conventional code,
whatever signal was requested), returning success without any
container-side confirmation. -/
theorem dockerKill_spec (st : DockerState) (pid signal : String) :
    (Registry.get st.registry pid = none →
      dockerKill st pid signal
        = (Result.err ErrCode.process_not_found ("Process " ++ pid ++ " not found"), st))
    ∧ (∀ p, Registry.get st.registry pid = some p →
        p.status = ProcStatus.terminated →
        dockerKill st pid signal
          = (Result.err ErrCode.process_terminated "Process has already terminated", st))
    ∧ (∀ p, Registry.get st.registry pid = some p →
        p.status = ProcStatus.running →
        st.execStreams.any (fun s => s.pid = pid) = false →
        dockerKill st pid signal
          = (Result.err ErrCode.stream_not_found "Exec stream not found", st))
    ∧ (∀ p, Registry.get st.registry pid = some p →
        p.status = ProcStatus.running →
        st.execStreams.any (fun s => s.pid = pid) = true →
        dockerKill st pid signal
          = (Result.ok (),
             { registry := Registry.modify st.registry pid (fun q =>
                 { q with status := ProcStatus.terminated, exitCode := some 143 })
               execStreams := st.execStreams.map (fun s =>
                 if s.pid = pid then { s with destroyed := true } else s) })) := by
  refine ⟨?_, ?_, ?_, ?_⟩
  · intro h
    rw [dockerKill.eq_def, h]
  · intro p hp hterm
    rw [dockerKill.eq_def, hp]
    simp [hterm]
  · intro p hp hrun hstream
    rw [dockerKill.eq_def, hp]
    simp [hrun, hstream]
  · intro p hp hrun hstream
    rw [dockerKill.eq_def, hp]
    simp [hrun, hstream]

/-- Witness for C8 (amended): killing the live registered process
succeeds; an unknown id fails `process_not_found`. -/
theorem dockerKill_spec_witness :
    (dockerKill c8St "docker-1" "SIGTERM").1 = Result.ok ()
    ∧ dockerKill c8St "ghost" "SIGTERM"
        = (Result.err ErrCode.process_not_found "Process ghost not found", c8St) :=
  ⟨by rw [(dockerKill_spec c8St "docker-1" "SIGTERM").2.2.2 c8Proc rfl rfl rfl],
   (dockerKill_spec c8St "ghost" "SIGTERM").1 rfl⟩
